import Mathlib

/-!
Verification of the FredIRC client engine (fredirc/processor.py and
fredirc/connection.py) against its natural-language specification.

The processor's mutable state (ClientState plus the pending-channel table)
is embedded as explicit state passing; Python dicts become association
lists with unique keys; handler callbacks become an ordered event list;
Python exceptions become an explicit outcome value, with all state
mutations performed before the raising point preserved.
-/

/-! ## Association-list model of Python dicts (channel name to ChannelInfo) -/

/-- Membership lists for channel info: set-like add used by ChannelInfo. -/
def addNickToList (l : List String) (n : String) : List String :=
  if n ∈ l then l else l ++ [n]

/-- Modelled from the spec: fredirc/info.py is not under src/. ChannelInfo
holds the channel name, an optional topic and the set of member nicks
(spec section 3), with mutators addNicks, removeNick, setTopic invoked
only by the MessageProcessor. Nicks are kept as a duplicate-free list. -/
structure ChannelInfo where
  name : String
  topic : Option String
  nicks : List String
deriving DecidableEq, Repr

def ChannelInfo.addNicks (info : ChannelInfo) (ns : List String) : ChannelInfo :=
  { info with nicks := ns.foldl addNickToList info.nicks }

def ChannelInfo.removeNick (info : ChannelInfo) (n : String) : ChannelInfo :=
  { info with nicks := info.nicks.filter (fun m => m ≠ n) }

def ChannelInfo.setTopic (info : ChannelInfo) (t : String) : ChannelInfo :=
  { info with topic := some t }

/-- Association list standing for a Python dict from channel name to ChannelInfo. -/
abbrev CDict := List (String × ChannelInfo)

/-- Python `d[k]` read access (None-free lookup; a failed lookup is a KeyError
at the call sites that model it). -/
def dlookup : CDict → String → Option ChannelInfo
  | [], _ => none
  | (k, v) :: rest, key => if k = key then some v else dlookup rest key

/-- Python `d[k] = v`: replace the existing entry for the key or append a new one. -/
def dinsert : CDict → String → ChannelInfo → CDict
  | [], key, v => [(key, v)]
  | (k, w) :: rest, key, v =>
    if k = key then (k, v) :: rest else (k, w) :: dinsert rest key v

/-- Python `del d[k]` / `d.pop(k)`: drop the (unique) entry for the key. -/
def derase : CDict → String → CDict
  | [], _ => []
  | (k, w) :: rest, key => if k = key then rest else (k, w) :: derase rest key

/-- The dict's key list, `list(d.keys())`. -/
def dkeys (d : CDict) : List String := d.map (fun kv => kv.1)

/-- In-place mutation of every stored ChannelInfo, as done by the NICK and
QUIT loops that iterate over `self._state.channels.values()`. -/
def dmapVals (f : ChannelInfo → ChannelInfo) (d : CDict) : CDict :=
  d.map (fun kv => (kv.1, f kv.2))

/-- Python `list.remove(x)`: remove the first occurrence, None when absent
(the call site raises ValueError in that case). -/
def listRemoveFirst : List String → String → Option (List String)
  | [], _ => none
  | x :: rest, y =>
    if x = y then some rest else (listRemoveFirst rest y).map (fun l => x :: l)

/-! ## Client state and processor state -/

/-- The shared ClientState mutated only by the MessageProcessor.
`operator_in` and `has_voice_in` are Python lists in the source
(appended to and removed from by `_process_channel_mode`). -/
structure ClientState where
  connected : Bool
  registered : Bool
  nick : String
  server : Option String
  channels : CDict
  operator_in : List String
  has_voice_in : List String
deriving DecidableEq, Repr

/-- MessageProcessor-owned state: the ClientState plus `_pending_channel_info`. -/
structure ProcState where
  state : ClientState
  pending : CDict
deriving DecidableEq, Repr

/-! ## Handler events and Python exceptions -/

/-- One IRCHandler callback invocation, in the order the processor performs them. -/
inductive Event where
  | unhandledMessage (raw : String)
  | ping (payload : String)
  | privateMessage (msg sender : String)
  | channelMessage (channel msg sender : String)
  | response (num : Nat) (raw : String)
  | register
  | ownJoin (channel : String)
  | join (channel nick : String)
  | ownPart (channel : String)
  | part (channel nick : String) (partMessage : Option String)
  | error (num : Nat) (kwargs : List (String × String))
  | ownNickChange (old new : String)
  | nickChange (old new : String)
  | ownGotOp (channel initiator : String)
  | gotOp (channel user initiator : String)
  | ownLostOp (channel initiator : String)
  | lostOp (channel user initiator : String)
  | ownGotVoice (channel initiator : String)
  | gotVoice (channel user initiator : String)
  | ownLostVoice (channel initiator : String)
  | lostVoice (channel user initiator : String)
  | ownKick (channel initiator : String) (reason : Option String)
  | kick (channel nick initiator : String) (reason : Option String)
  | quit (nick : String) (quitMessage : Option String)
deriving DecidableEq, Repr

/-- Python exceptions that can arise inside `MessageProcessor.process`.
MessageHandlingError and ParserError are caught at the top of `process`;
the others escape it. -/
inductive PyErr where
  | messageHandling (raw : String)
  | parserErr
  | keyError
  | indexError
  | valueError
  | typeError
  | assertionError
deriving DecidableEq, Repr

/-- Result of one internal processing step: the state reached (mutations
made before a raise persist), the handler callbacks already made, and the
exception in flight, if any. -/
structure PResult where
  st : ProcState
  events : List Event
  exc : Option PyErr
deriving DecidableEq, Repr

/-- Outcome of `process` as seen by its caller. -/
inductive Outcome where
  | ok
  | uncaught (e : PyErr)
deriving DecidableEq, Repr

/-- Input to `process` after the external tokenizer ran: either the tokenizer
raised ParserError, or it produced (optional user/server origin, command
token, parameter list); the raw line is kept for error reporting. -/
inductive ServerMsg where
  | parseFail (raw : String)
  | parsed (pfx : Option String) (command : String) (params : List String) (raw : String)
deriving DecidableEq, Repr

/-! ## External tokenizer sub-parsers and protocol constants -/

/-- Modelled from the spec: parsing.parse_user_prefix (fredirc/parsing.py is
not under src/) resolves the nick component of a user origin string of the
form nick!user@host (spec section 6); it fails with ParserError when no
nick component is present. Call sites use only component 0 (the nick). -/
def parseUserNick (p : String) : Except Unit String :=
  let nk := p.data.takeWhile (fun c => !(c == '!') && !(c == '@'))
  if nk.isEmpty then .error () else .ok (String.mk nk)

/-- The nick of the message origin, as `parsing.parse_user_prefix(prefix)[0]`.
A missing origin (None in Python) is a TypeError at this call. -/
def parseNickFromPfx (pfx : Option String) : Except PyErr String :=
  match pfx with
  | none => .error .typeError
  | some p =>
    match parseUserNick p with
    | .error _ => .error .parserErr
    | .ok nk => .ok nk

/-- Channel names begin with one of the channel marker characters
(used by `_set_topic`, the ENDOFNAMES branch, and target resolution). -/
def isChannelName (s : String) : Bool :=
  match s.data with
  | [] => false
  | c :: _ => c == '#' || c == '+' || c == '&'

/-- One message target descriptor: a nick or a channel (spec section 6). -/
structure Target where
  nick : Option String
  channel : Option String
deriving DecidableEq, Repr

/-- Split a character list at a separator character (Python str.split(sep)). -/
def splitChar (sep : Char) : List Char → List (List Char)
  | [] => [[]]
  | c :: rest =>
    if c = sep then [] :: splitChar sep rest
    else
      match splitChar sep rest with
      | [] => [[c]]
      | l :: ls => (c :: l) :: ls

def splitStr (sep : Char) (s : String) : List String :=
  (splitChar sep s.data).map String.mk

/-- Modelled from the spec: parsing.parse_message_target (fredirc/parsing.py
is not under src/) maps a target-list string to a list of nick-or-channel
descriptors (spec section 6); targets are comma separated and a channel is
recognized by its marker character. An empty string is a ParserError. -/
def parse_message_target (s : String) : Except Unit (List Target) :=
  if s = "" then .error ()
  else
    .ok ((splitStr ',' s).map (fun t =>
      if isChannelName t then ⟨none, some t⟩ else ⟨some t, none⟩))

/-- One channel mode change descriptor (spec section 6). -/
structure ModeChange where
  mode : Char
  added : Bool
  params : List String
deriving DecidableEq, Repr

def parseModeChars (added : Bool) (cs : List Char) (args : List String)
    (acc : List ModeChange) : List ModeChange :=
  match cs with
  | [] => acc
  | c :: rest =>
    if c = '+' then parseModeChars true rest args acc
    else if c = '-' then parseModeChars false rest args acc
    else
      match args with
      | a :: args2 => parseModeChars added rest args2 (acc ++ [⟨c, added, [a]⟩])
      | [] => parseModeChars added rest [] (acc ++ [⟨c, added, []⟩])

/-- Modelled from the spec: parsing.parse_channel_mode_params
(fredirc/parsing.py is not under src/) maps MODE parameters to mode-change
descriptors with mode letter, direction, and mode arguments
(spec section 6). No parameters at all is a ParserError. -/
def parse_channel_mode_params (ps : List String) : Except Unit (List ModeChange) :=
  match ps with
  | [] => .error ()
  | modes :: args => .ok (parseModeChars true modes.data args [])

/-- Result of parsing one NAMREPLY parameter list (spec section 6). -/
structure NameList where
  channel_name : String
  nicks : List String
deriving DecidableEq, Repr

/-- Modelled from the spec: parsing.parse_name_list (fredirc/parsing.py is
not under src/) maps the NAMREPLY parameters (client, visibility marker,
channel, space-separated nick string) to a channel name and nick list
(spec section 6); any other shape is a ParserError. -/
def parse_name_list (params : List String) : Except Unit NameList :=
  match params with
  | [_, _, ch, names] => .ok ⟨ch, splitStr ' ' names⟩
  | _ => .error ()

/-- Modelled from the spec: the command name constants of
fredirc/messages.py (not under src/), the fixed set of spec section 4.2. -/
def Cmd.PING : String := "PING"
def Cmd.PRIVMSG : String := "PRIVMSG"
def Cmd.JOIN : String := "JOIN"
def Cmd.PART : String := "PART"
def Cmd.MODE : String := "MODE"
def Cmd.KICK : String := "KICK"
def Cmd.NICK : String := "NICK"
def Cmd.TOPIC : String := "TOPIC"
def Cmd.QUIT : String := "QUIT"

/-- Modelled from the spec: numeric reply codes of fredirc/messages.py (not
under src/); the standard IRC numerics for the replies named in spec
section 4.2 (welcome 001, topic reply 332, names fragment 353,
end-of-names 366). -/
def Rpl.WELCOME : Nat := 1
def Rpl.TOPIC : Nat := 332
def Rpl.NAMREPLY : Nat := 353
def Rpl.ENDOFNAMES : Nat := 366

/-- Modelled from the spec: the channel mode letters for operator and voice
of fredirc/messages.py (not under src/). -/
def ChannelMode.OPERATOR : Char := 'o'
def ChannelMode.VOICE : Char := 'v'

/-- Modelled from the spec: Err.ERROR_PARAMETERS of fredirc/messages.py (not
under src/), the static per-code ordered parameter-name schema of spec
section 4.4; code 433 has schema [nick, message] (spec section 8). Codes
outside the table make the lookup a KeyError. -/
def ERROR_PARAMETERS (num : Nat) : Option (List String) :=
  if num = 401 then some ["nick", "message"]
  else if num = 403 then some ["channel", "message"]
  else if num = 433 then some ["nick", "message"]
  else if num = 462 then some ["message"]
  else none

/-- Python ' '.join. -/
def joinSpace : List String → String
  | [] => ""
  | [s] => s
  | s :: rest => s ++ " " ++ joinSpace rest

/-! ## MessageProcessor -/

/-- The regular expression [0-9][0-9][0-9] matched at the start of the
command token. -/
def threeDigitsMatch (s : String) : Bool :=
  match s.data with
  | a :: b :: c :: _ => a.isDigit && b.isDigit && c.isDigit
  | _ => false

/-- Python int() restricted to the digit strings that occur as command
tokens; anything else raises ValueError at the call site. -/
def pyInt (s : String) : Option Nat :=
  if s.data ≠ [] ∧ s.data.all Char.isDigit then
    some (s.data.foldl (fun a c => a * 10 + (c.toNat - 48)) 0)
  else none

/-- MessageProcessor._process_ping. -/
def processPing (st : ProcState) (params : List String) : PResult :=
  match params with
  | [] => ⟨st, [], some .indexError⟩
  | p0 :: _ => ⟨st, [.ping p0], none⟩

/-- The sender resolution of `_process_privmsg`: None origin or empty origin
string leaves the sender unset; otherwise the origin nick is parsed. -/
def privmsgSender (pfx : Option String) : Except PyErr (Option String) :=
  match pfx with
  | none => .ok none
  | some p =>
    if p = "" then .ok none
    else
      match parseUserNick p with
      | .error _ => .error .parserErr
      | .ok nk => .ok (some nk)

/-- The body of the per-target loop of `_process_privmsg`. -/
def privmsgTargetEvents (st : ProcState) (t : Target) (msg sender : String) :
    List Event :=
  match t.nick with
  | some n =>
    if n = st.state.nick then [.privateMessage msg sender] else
      match t.channel with
      | some c =>
        if (dkeys st.state.channels).contains c then [.channelMessage c msg sender]
        else []
      | none => []
  | none =>
    match t.channel with
    | some c =>
      if (dkeys st.state.channels).contains c then [.channelMessage c msg sender]
      else []
    | none => []

/-- MessageProcessor._process_privmsg. -/
def processPrivmsg (st : ProcState) (pfx : Option String) (params : List String)
    (raw : String) : PResult :=
  if params.length ≠ 2 then ⟨st, [], some (.messageHandling raw)⟩
  else
    match privmsgSender pfx with
    | .error e => ⟨st, [], some e⟩
    | .ok none => ⟨st, [], none⟩
    | .ok (some sender) =>
      if sender = st.state.nick then ⟨st, [], none⟩
      else
        match params with
        | p0 :: p1 :: _ =>
          match parse_message_target p0 with
          | .error _ => ⟨st, [], some .parserErr⟩
          | .ok targets =>
            ⟨st, targets.foldl (fun evs t => evs ++ privmsgTargetEvents st t p1 sender) [],
             none⟩
        | _ => ⟨st, [], none⟩

/-- MessageProcessor._set_topic. -/
def setTopicSt (st : ProcState) (channel topic : String) : ProcState :=
  if isChannelName channel then
    match dlookup st.pending channel with
    | some info => { st with pending := dinsert st.pending channel (info.setTopic topic) }
    | none =>
      match dlookup st.state.channels channel with
      | some info =>
        { st with state :=
          { st.state with channels := dinsert st.state.channels channel (info.setTopic topic) } }
      | none => st
  else st

/-- MessageProcessor._process_numeric_reply. -/
def processNumericReply (st : ProcState) (num : Nat) (pfx : Option String)
    (params : List String) (raw : String) : PResult :=
  let ev0 : List Event := [.response num raw]
  if num = Rpl.WELCOME then
    let cs := { st.state with registered := true, server := pfx }
    match params with
    | [] => ⟨{ st with state := cs }, ev0, some .indexError⟩
    | n0 :: _ => ⟨{ st with state := { cs with nick := n0 } }, ev0 ++ [.register], none⟩
  else if num = Rpl.TOPIC then
    match params with
    | _ :: p1 :: p2 :: _ => ⟨setTopicSt st p1 p2, ev0, none⟩
    | _ => ⟨st, ev0, some .indexError⟩
  else if num = Rpl.NAMREPLY then
    match parse_name_list params with
    | .error _ => ⟨st, ev0, some .parserErr⟩
    | .ok nl =>
      match dlookup st.pending nl.channel_name with
      | some info =>
        ⟨{ st with pending := dinsert st.pending nl.channel_name (info.addNicks nl.nicks) },
         ev0, none⟩
      | none => ⟨st, ev0, none⟩
  else if num = Rpl.ENDOFNAMES then
    match params with
    | _ :: ch :: _ =>
      if isChannelName ch then
        match dlookup st.pending ch with
        | some info =>
          ⟨{ st with
              pending := derase st.pending ch,
              state := { st.state with channels := dinsert st.state.channels ch info } },
           ev0 ++ [.ownJoin ch], none⟩
        | none => ⟨st, ev0, none⟩
      else ⟨st, ev0, none⟩
    | _ => ⟨st, ev0, some .indexError⟩
  else ⟨st, ev0, none⟩

/-- MessageProcessor._process_numeric_error. -/
def processNumericError (st : ProcState) (num : Nat) (params : List String)
    (_raw : String) : PResult :=
  let ps := params.drop 1
  match ERROR_PARAMETERS num with
  | none => ⟨st, [], some .keyError⟩
  | some names =>
    let kwargs :=
      if ps.length ≠ names.length then
        names.map (fun nm => (nm, if nm = "message" then joinSpace ps else ""))
      else names.zip ps
    ⟨st, [.error num kwargs], none⟩

/-- MessageProcessor._process_join. -/
def processJoin (st : ProcState) (pfx : Option String) (params : List String) : PResult :=
  match parseNickFromPfx pfx with
  | .error e => ⟨st, [], some e⟩
  | .ok nick =>
    match params with
    | [] => ⟨st, [], some .indexError⟩
    | channel :: _ =>
      if st.state.nick = nick then
        if (dkeys st.state.channels).contains channel then ⟨st, [], none⟩
        else ⟨{ st with pending := dinsert st.pending channel ⟨channel, none, []⟩ }, [], none⟩
      else
        match dlookup st.state.channels channel with
        | none => ⟨st, [], some .keyError⟩
        | some info =>
          ⟨{ st with state :=
              { st.state with channels := dinsert st.state.channels channel (info.addNicks [nick]) } },
           [.join channel nick], none⟩

/-- MessageProcessor._process_part. -/
def processPart (st : ProcState) (pfx : Option String) (params : List String) : PResult :=
  match parseNickFromPfx pfx with
  | .error e => ⟨st, [], some e⟩
  | .ok nick =>
    match params with
    | [] => ⟨st, [], some .indexError⟩
    | channel :: restParams =>
      if st.state.nick = nick then
        let st' :=
          if (dkeys st.state.channels).contains channel then
            { st with state := { st.state with channels := derase st.state.channels channel } }
          else st
        ⟨st', [.ownPart channel], none⟩
      else
        match dlookup st.state.channels channel with
        | none => ⟨st, [], some .keyError⟩
        | some info =>
          ⟨{ st with state :=
              { st.state with channels := dinsert st.state.channels channel (info.removeNick nick) } },
           [.part channel nick restParams.head?], none⟩

/-- MessageProcessor._process_nick. -/
def processNick (st : ProcState) (pfx : Option String) (params : List String) : PResult :=
  match parseNickFromPfx pfx with
  | .error e => ⟨st, [], some e⟩
  | .ok oldNick =>
    match params with
    | [] => ⟨st, [], some .indexError⟩
    | newNick :: _ =>
      let channels' := dmapVals
        (fun info =>
          if oldNick ∈ info.nicks then (info.removeNick oldNick).addNicks [newNick] else info)
        st.state.channels
      if oldNick = st.state.nick then
        ⟨{ st with state := { st.state with channels := channels', nick := newNick } },
         [.ownNickChange oldNick newNick], none⟩
      else
        ⟨{ st with state := { st.state with channels := channels' } },
         [.nickChange oldNick newNick], none⟩

/-- The loop body of `_process_channel_mode`, over the parsed mode changes.
State mutations and events made before a raise persist. -/
def modeLoop (channel initiator : String) :
    ClientState → List Event → List ModeChange → ClientState × List Event × Option PyErr
  | cs, evs, [] => (cs, evs, none)
  | cs, evs, mc :: rest =>
    if mc.mode = ChannelMode.OPERATOR then
      match mc.params with
      | [] => (cs, evs, some .indexError)
      | user :: _ =>
        if mc.added then
          if user = cs.nick then
            modeLoop channel initiator { cs with operator_in := cs.operator_in ++ [channel] }
              (evs ++ [.ownGotOp channel initiator]) rest
          else modeLoop channel initiator cs (evs ++ [.gotOp channel user initiator]) rest
        else
          if user = cs.nick then
            match listRemoveFirst cs.operator_in channel with
            | none => (cs, evs, some .valueError)
            | some l =>
              modeLoop channel initiator { cs with operator_in := l }
                (evs ++ [.ownLostOp channel initiator]) rest
          else modeLoop channel initiator cs (evs ++ [.lostOp channel user initiator]) rest
    else if mc.mode = ChannelMode.VOICE then
      match mc.params with
      | [] => (cs, evs, some .indexError)
      | user :: _ =>
        if mc.added then
          if user = cs.nick then
            modeLoop channel initiator { cs with has_voice_in := cs.has_voice_in ++ [channel] }
              (evs ++ [.ownGotVoice channel initiator]) rest
          else modeLoop channel initiator cs (evs ++ [.gotVoice channel user initiator]) rest
        else
          if user = cs.nick then
            match listRemoveFirst cs.has_voice_in channel with
            | none => (cs, evs, some .valueError)
            | some l =>
              modeLoop channel initiator { cs with has_voice_in := l }
                (evs ++ [.ownLostVoice channel initiator]) rest
          else modeLoop channel initiator cs (evs ++ [.lostVoice channel user initiator]) rest
    else modeLoop channel initiator cs evs rest

/-- MessageProcessor._process_channel_mode. -/
def processChannelMode (st : ProcState) (channel : String) (params : List String)
    (initiator : String) : PResult :=
  match parse_channel_mode_params params with
  | .error _ => ⟨st, [], some .parserErr⟩
  | .ok changes =>
    let r := modeLoop channel initiator st.state [] changes
    ⟨{ st with state := r.1 }, r.2.1, r.2.2⟩

/-- MessageProcessor._process_mode. -/
def processMode (st : ProcState) (pfx : Option String) (params : List String)
    (raw : String) : PResult :=
  match params with
  | [] => ⟨st, [], some .indexError⟩
  | p0 :: restParams =>
    match parse_message_target p0 with
    | .error _ => ⟨st, [], some .parserErr⟩
    | .ok [] => ⟨st, [], some .indexError⟩
    | .ok (target :: _) =>
      match parseNickFromPfx pfx with
      | .error e => ⟨st, [], some e⟩
      | .ok initiator =>
        match target.channel with
        | some ch => processChannelMode st ch restParams initiator
        | none => ⟨st, [], some (.messageHandling raw)⟩

/-- MessageProcessor._process_kick. -/
def processKick (st : ProcState) (pfx : Option String) (params : List String) : PResult :=
  if params.length < 2 then ⟨st, [], none⟩
  else
    match params with
    | channel :: nick :: restParams =>
      match parseNickFromPfx pfx with
      | .error e => ⟨st, [], some e⟩
      | .ok initiator =>
        let reason := restParams.head?
        if nick = st.state.nick then
          let st' :=
            if (dkeys st.state.channels).contains channel then
              { st with state := { st.state with channels := derase st.state.channels channel } }
            else st
          ⟨st', [.ownKick channel initiator reason], none⟩
        else
          match dlookup st.state.channels channel with
          | none => ⟨st, [], some .keyError⟩
          | some info =>
            ⟨{ st with state :=
                { st.state with channels := dinsert st.state.channels channel (info.removeNick nick) } },
             [.kick channel nick initiator reason], none⟩
    | _ => ⟨st, [], none⟩

/-- MessageProcessor._process_topic. -/
def processTopic (st : ProcState) (params : List String) : PResult :=
  match params with
  | p0 :: p1 :: _ => ⟨setTopicSt st p0 p1, [], none⟩
  | _ => ⟨st, [], some .indexError⟩

/-- MessageProcessor._process_quit. -/
def processQuit (st : ProcState) (pfx : Option String) (params : List String) : PResult :=
  match parseNickFromPfx pfx with
  | .error e => ⟨st, [], some e⟩
  | .ok nick =>
    let channels' := dmapVals
      (fun info => if nick ∈ info.nicks then info.removeNick nick else info)
      st.state.channels
    ⟨{ st with state := { st.state with channels := channels' } },
     [.quit nick params.head?], none⟩

/-- The command classification and dispatch inside the try block of
MessageProcessor.process. -/
def processDispatch (st : ProcState) (pfx : Option String) (command : String)
    (params : List String) (raw : String) : PResult :=
  if threeDigitsMatch command then
    match pyInt command with
    | none => ⟨st, [], some .valueError⟩
    | some n =>
      if n ≤ 399 then processNumericReply st n pfx params raw
      else if n ≤ 599 then processNumericError st n params raw
      else ⟨st, [], some (.messageHandling raw)⟩
  else if command = Cmd.PING then processPing st params
  else if command = Cmd.PRIVMSG then processPrivmsg st pfx params raw
  else if command = Cmd.JOIN then processJoin st pfx params
  else if command = Cmd.PART then processPart st pfx params
  else if command = Cmd.MODE then processMode st pfx params raw
  else if command = Cmd.KICK then processKick st pfx params
  else if command = Cmd.NICK then processNick st pfx params
  else if command = Cmd.TOPIC then processTopic st params
  else if command = Cmd.QUIT then processQuit st pfx params
  else ⟨st, [], some (.messageHandling raw)⟩

/-- MessageProcessor.process: the assert on `connected`, the tokenizer call
(a ParserError discards the line), dispatch, and the top-level handlers:
MessageHandlingError is reported to the handler as an unhandled message,
ParserError is logged and the line discarded, everything else escapes. -/
def process (st : ProcState) (msg : ServerMsg) : ProcState × List Event × Outcome :=
  if st.state.connected then
    match msg with
    | .parseFail _ => (st, [], .ok)
    | .parsed pfx command params raw =>
      let r := processDispatch st pfx command params raw
      match r.exc with
      | none => (r.st, r.events, .ok)
      | some (.messageHandling m) => (r.st, r.events ++ [.unhandledMessage m], .ok)
      | some .parserErr => (r.st, r.events, .ok)
      | some e => (r.st, r.events, .uncaught e)
  else (st, [], .uncaught .assertionError)

/-- Process a sequence of server messages, accumulating the handler events. -/
def processSeq (st : ProcState) : List ServerMsg → ProcState × List Event
  | [] => (st, [])
  | m :: rest =>
    let r := process st m
    let r2 := processSeq r.1 rest
    (r2.1, r.2.1 ++ r2.2)

/-- The state the orchestrator hands to a fresh MessageProcessor: connected,
not yet registered, no channels, no pending channels. -/
def initProc : ProcState :=
  ⟨⟨true, false, "", none, [], [], []⟩, []⟩

/-- Count of own-join events in an event list. -/
def countOwnJoin (evs : List Event) : Nat :=
  (evs.filter (fun e => match e with | .ownJoin _ => true | _ => false)).length

/-! ## Connection (fredirc/connection.py)

The Connection drives an asyncio event loop. The model keeps the two loop
facts the code observes: `loopRunning` models `loop.is_running()`, which is
true from the start of `run()` until `run_forever()` returns — in
particular it stays true across consecutive synchronous calls made from
within a dispatched callback, even after `loop.stop()` was called, because
`stop()` only requests that the loop exit once control returns to it.
`stopRequested` records that `loop.stop()` was called; `loopExit` is the
moment `run_forever()` returns. `shutdownCalls` counts the invocations of
the abstract `connection_shutdown()` callback. -/

structure ConnState where
  loopRunning : Bool
  stopRequested : Bool
  shutdownCalls : Nat
deriving DecidableEq, Repr

/-- Connection.terminate: if the loop is running, stop it and invoke the
shutdown callback; otherwise silently return. -/
def Connection.terminate (c : ConnState) : ConnState :=
  if c.loopRunning then
    { c with stopRequested := true, shutdownCalls := c.shutdownCalls + 1 }
  else c

/-- The event loop's `run_forever()` returning (the connection is now fully
terminated; `loop.is_running()` becomes false). -/
def loopExit (c : ConnState) : ConnState :=
  { c with loopRunning := false }

/-- UTF-8 encoding of one character, as Python str.encode('utf-8'). -/
def utf8EncodeChar (c : Char) : List Nat :=
  let n := c.toNat
  if n < 0x80 then [n]
  else if n < 0x800 then [0xC0 + n / 64, 0x80 + n % 64]
  else if n < 0x10000 then
    [0xE0 + n / 4096, 0x80 + (n / 64) % 64, 0x80 + n % 64]
  else
    [0xF0 + n / 262144, 0x80 + (n / 4096) % 64, 0x80 + (n / 64) % 64, 0x80 + n % 64]

def utf8Encode (s : String) : List Nat :=
  (s.data.map utf8EncodeChar).flatten

/-- The NotConnectedError raised by send_message outside a running loop. -/
inductive ConnError where
  | notConnected
deriving DecidableEq, Repr

/-- Connection.send_message: only while the event loop is running, append
the line terminator and encode as UTF-8; otherwise raise NotConnectedError. -/
def Connection.send_message (c : ConnState) (message : String) :
    Except ConnError (List Nat) :=
  if c.loopRunning then .ok (utf8Encode (message ++ "\r\n"))
  else .error .notConnected

/-- The replacement character U+FFFD substituted for malformed bytes. -/
def replChar : Char := Char.ofNat 0xFFFD

def isCont (b : Nat) : Bool := 0x80 ≤ b && b ≤ 0xBF

/-- Valid second byte of a three-byte sequence, given the first byte. -/
def cont3ok (b b1 : Nat) : Bool :=
  if b = 0xE0 then 0xA0 ≤ b1 && b1 ≤ 0xBF
  else if b = 0xED then 0x80 ≤ b1 && b1 ≤ 0x9F
  else isCont b1

/-- Valid second byte of a four-byte sequence, given the first byte. -/
def cont4ok (b b1 : Nat) : Bool :=
  if b = 0xF0 then 0x90 ≤ b1 && b1 ≤ 0xBF
  else if b = 0xF4 then 0x80 ≤ b1 && b1 ≤ 0x8F
  else isCont b1

/-- bytes.decode('utf-8', 'log_and_replace'): UTF-8 decoding where every
maximal malformed byte subsequence is replaced by U+FFFD (the handler
registered by Connection logs and then delegates to codecs.replace_errors),
so decoding is total and never raises. Decoding resumes directly after the
malformed subsequence, as CPython's decoder does. -/
def utf8DecodeReplace : List Nat → List Char
  | [] => []
  | b :: rest =>
    if b < 0x80 then Char.ofNat b :: utf8DecodeReplace rest
    else if 0xC2 ≤ b && b ≤ 0xDF then
      match rest with
      | [] => [replChar]
      | b1 :: rest1 =>
        if isCont b1 then
          Char.ofNat ((b - 0xC0) * 64 + (b1 - 0x80)) :: utf8DecodeReplace rest1
        else replChar :: utf8DecodeReplace (b1 :: rest1)
    else if 0xE0 ≤ b && b ≤ 0xEF then
      match rest with
      | [] => [replChar]
      | b1 :: rest1 =>
        if cont3ok b b1 then
          match rest1 with
          | [] => [replChar]
          | b2 :: rest2 =>
            if isCont b2 then
              Char.ofNat ((b - 0xE0) * 4096 + (b1 - 0x80) * 64 + (b2 - 0x80)) ::
                utf8DecodeReplace rest2
            else replChar :: utf8DecodeReplace (b2 :: rest2)
        else replChar :: utf8DecodeReplace (b1 :: rest1)
    else if 0xF0 ≤ b && b ≤ 0xF4 then
      match rest with
      | [] => [replChar]
      | b1 :: rest1 =>
        if cont4ok b b1 then
          match rest1 with
          | [] => [replChar]
          | b2 :: rest2 =>
            if isCont b2 then
              match rest2 with
              | [] => [replChar]
              | b3 :: rest3 =>
                if isCont b3 then
                  Char.ofNat ((b - 0xF0) * 262144 + (b1 - 0x80) * 4096 +
                      (b2 - 0x80) * 64 + (b3 - 0x80)) :: utf8DecodeReplace rest3
                else replChar :: utf8DecodeReplace (b3 :: rest3)
            else replChar :: utf8DecodeReplace (b2 :: rest2)
        else replChar :: utf8DecodeReplace (b1 :: rest1)
    else replChar :: utf8DecodeReplace rest

/-- The line-boundary characters of Python str.splitlines. -/
def isLineBreakChar (c : Char) : Bool :=
  c.toNat = 10 || c.toNat = 13 || c.toNat = 11 || c.toNat = 12 ||
  c.toNat = 28 || c.toNat = 29 || c.toNat = 30 || c.toNat = 133 ||
  c.toNat = 8232 || c.toNat = 8233

/-- Split at every line boundary, a carriage-return line-feed pair counting
as one boundary; keeps a final (possibly empty) unterminated piece. -/
def consHead (c : Char) : List (List Char) → List (List Char)
  | [] => [[c]]
  | l :: ls => (c :: l) :: ls

def splitBreaks : List Char → List (List Char)
  | [] => [[]]
  | '\r' :: '\n' :: rest => [] :: splitBreaks rest
  | c :: rest =>
    if isLineBreakChar c then [] :: splitBreaks rest
    else consHead c (splitBreaks rest)

/-- A final piece produced by a trailing terminator is dropped. -/
def stripLastEmpty : List (List Char) → List (List Char)
  | [] => []
  | [x] => if x.isEmpty then [] else [x]
  | x :: rest => x :: stripLastEmpty rest

/-- Python str.splitlines: like splitBreaks, but a trailing terminator does
not produce a final empty line. -/
def pySplitlines (s : List Char) : List (List Char) :=
  stripLastEmpty (splitBreaks s)

/-- Connection.data_received: decode the byte block with the replacing
error handler, split into lines, and hand each line in order to the
message-dispatch callback. The model returns the dispatched lines. -/
def Connection.data_received (bytes : List Nat) : List String :=
  (pySplitlines (utf8DecodeReplace bytes)).map String.mk

/-! ## Invariant predicates -/

/-- No channel name is a key of both the pending table and `channels`. -/
def DisjointPC (st : ProcState) : Prop :=
  ∀ c, c ∈ dkeys st.pending → c ∉ dkeys st.state.channels

/-- The processor's structural invariant: pending and occupied channels are
disjoint, and the pending table has no duplicate keys. -/
def PInv (st : ProcState) : Prop :=
  DisjointPC st ∧ (dkeys st.pending).Nodup

/-! # Theorems -/

/-! ## Association-list lemmas -/

theorem mem_dkeys_dinsert {d : CDict} {k c : String} {v : ChannelInfo}
    (h : c ∈ dkeys (dinsert d k v)) : c ∈ dkeys d ∨ c = k := by
  induction d with
  | nil =>
    simp only [dinsert, dkeys, List.map_cons, List.map_nil, List.mem_singleton] at h
    exact Or.inr h
  | cons kv rest ih =>
    rcases kv with ⟨k1, v1⟩
    rw [dinsert] at h
    by_cases hk : k1 = k
    · rw [if_pos hk] at h
      simp only [dkeys, List.map_cons, List.mem_cons] at h ⊢
      rcases h with h | h
      · exact Or.inr (by rw [h, hk])
      · exact Or.inl (Or.inr h)
    · rw [if_neg hk] at h
      simp only [dkeys, List.map_cons, List.mem_cons] at h ⊢
      rcases h with h | h
      · exact Or.inl (Or.inl h)
      · rcases ih h with h2 | h2
        · exact Or.inl (Or.inr h2)
        · exact Or.inr h2

theorem mem_dkeys_derase {d : CDict} {k c : String}
    (h : c ∈ dkeys (derase d k)) : c ∈ dkeys d := by
  induction d with
  | nil => simp [derase, dkeys] at h
  | cons kv rest ih =>
    rcases kv with ⟨k1, v1⟩
    rw [derase] at h
    by_cases hk : k1 = k
    · simp only [if_pos hk] at h
      simp only [dkeys, List.map_cons, List.mem_cons]
      exact Or.inr h
    · simp only [if_neg hk] at h
      simp only [dkeys, List.map_cons, List.mem_cons] at h ⊢
      rcases h with h | h
      · exact Or.inl h
      · exact Or.inr (ih h)

theorem not_mem_dkeys_derase_self {d : CDict} {k : String}
    (hnd : (dkeys d).Nodup) : k ∉ dkeys (derase d k) := by
  induction d with
  | nil => simp [derase, dkeys]
  | cons kv rest ih =>
    rcases kv with ⟨k1, v1⟩
    simp only [dkeys, List.map_cons, List.nodup_cons] at hnd
    rw [derase]
    by_cases hk : k1 = k
    · simp only [if_pos hk]
      intro hmem
      exact hnd.1 (hk ▸ hmem)
    · simp only [if_neg hk]
      intro hmem
      simp only [dkeys, List.map_cons, List.mem_cons] at hmem
      rcases hmem with h | h
      · exact hk (by rw [h])
      · exact ih hnd.2 h

theorem nodup_dkeys_dinsert {d : CDict} {k : String} {v : ChannelInfo}
    (hnd : (dkeys d).Nodup) : (dkeys (dinsert d k v)).Nodup := by
  induction d with
  | nil => simp [dinsert, dkeys]
  | cons kv rest ih =>
    rcases kv with ⟨k1, v1⟩
    simp only [dkeys, List.map_cons, List.nodup_cons] at hnd
    rw [dinsert]
    by_cases hk : k1 = k
    · simp only [if_pos hk, dkeys, List.map_cons, List.nodup_cons]
      exact hnd
    · simp only [if_neg hk, dkeys, List.map_cons, List.nodup_cons]
      constructor
      · intro hmem
        rcases mem_dkeys_dinsert hmem with h | h
        · exact hnd.1 h
        · exact hk h
      · exact ih hnd.2

theorem nodup_dkeys_derase {d : CDict} {k : String}
    (hnd : (dkeys d).Nodup) : (dkeys (derase d k)).Nodup := by
  induction d with
  | nil => simp [derase, dkeys]
  | cons kv rest ih =>
    rcases kv with ⟨k1, v1⟩
    simp only [dkeys, List.map_cons, List.nodup_cons] at hnd
    rw [derase]
    by_cases hk : k1 = k
    · simp only [if_pos hk]
      exact hnd.2
    · simp only [if_neg hk, dkeys, List.map_cons, List.nodup_cons]
      constructor
      · intro hmem
        exact hnd.1 (mem_dkeys_derase hmem)
      · exact ih hnd.2

theorem dkeys_dmapVals (f : ChannelInfo → ChannelInfo) (d : CDict) :
    dkeys (dmapVals f d) = dkeys d := by
  induction d with
  | nil => rfl
  | cons kv rest ih =>
    simp only [dmapVals, dkeys, List.map_cons, List.map_map] at ih ⊢
    rw [List.cons_inj_right]
    exact ih

theorem dlookup_some_mem {d : CDict} {k : String} {v : ChannelInfo}
    (h : dlookup d k = some v) : k ∈ dkeys d := by
  induction d with
  | nil => simp [dlookup] at h
  | cons kv rest ih =>
    rcases kv with ⟨k1, v1⟩
    rw [dlookup] at h
    by_cases hk : k1 = k
    · simp [dkeys, hk]
    · simp only [if_neg hk] at h
      simp only [dkeys, List.map_cons, List.mem_cons]
      exact Or.inr (ih h)

theorem dlookup_dinsert_self (d : CDict) (k : String) (v : ChannelInfo) :
    dlookup (dinsert d k v) k = some v := by
  induction d with
  | nil => simp [dinsert, dlookup]
  | cons kv rest ih =>
    rcases kv with ⟨k1, v1⟩
    rw [dinsert]
    by_cases hk : k1 = k
    · simp [dlookup, hk]
    · simp [dlookup, hk, ih]

theorem contains_dkeys_iff {d : CDict} {c : String} :
    (dkeys d).contains c = true ↔ c ∈ dkeys d := List.elem_iff

theorem contains_dkeys_false {d : CDict} {c : String}
    (h : (dkeys d).contains c = false) : c ∉ dkeys d := by
  intro hmem
  rw [← contains_dkeys_iff] at hmem
  rw [h] at hmem
  exact Bool.false_ne_true hmem

/-! ## Preservation of the pending/channels invariant -/

theorem pinv_set_state_keys_eq {st : ProcState} {cs : ClientState}
    (hcs : dkeys cs.channels = dkeys st.state.channels)
    (h : PInv st) : PInv { st with state := cs } := by
  constructor
  · intro c hc hcc
    refine h.1 c hc ?_
    have h2 : c ∈ dkeys cs.channels := hcc
    rwa [hcs] at h2
  · exact h.2

theorem pinv_dinsert_channels_existing {st : ProcState} {ch : String} {v info : ChannelInfo}
    (hl : dlookup st.state.channels ch = some info) (h : PInv st) :
    PInv { st with state := { st.state with channels := dinsert st.state.channels ch v } } := by
  constructor
  · intro c hc hcc
    rcases mem_dkeys_dinsert hcc with h1 | h1
    · exact h.1 c hc h1
    · exact h.1 c hc (h1 ▸ dlookup_some_mem hl)
  · exact h.2

theorem pinv_derase_channels {st : ProcState} {ch : String} (h : PInv st) :
    PInv { st with state := { st.state with channels := derase st.state.channels ch } } := by
  constructor
  · intro c hc hcc
    exact h.1 c hc (mem_dkeys_derase hcc)
  · exact h.2

theorem pinv_dinsert_pending_existing {st : ProcState} {k : String} {v info : ChannelInfo}
    (hl : dlookup st.pending k = some info) (h : PInv st) :
    PInv { st with pending := dinsert st.pending k v } := by
  constructor
  · intro c hc hcc
    rcases mem_dkeys_dinsert hc with h1 | h1
    · exact h.1 c h1 hcc
    · exact h.1 c (h1 ▸ dlookup_some_mem hl) hcc
  · exact nodup_dkeys_dinsert h.2

theorem pinv_dinsert_pending_new {st : ProcState} {ch : String} {v : ChannelInfo}
    (hnc : ((dkeys st.state.channels).contains ch) = false) (h : PInv st) :
    PInv { st with pending := dinsert st.pending ch v } := by
  constructor
  · intro c hc hcc
    rcases mem_dkeys_dinsert hc with h1 | h1
    · exact h.1 c h1 hcc
    · exact contains_dkeys_false hnc (h1 ▸ hcc)
  · exact nodup_dkeys_dinsert h.2

theorem pinv_promote_pending {st : ProcState} {ch : String} {v : ChannelInfo}
    (h : PInv st) :
    PInv { st with
      pending := derase st.pending ch,
      state := { st.state with channels := dinsert st.state.channels ch v } } := by
  constructor
  · intro c hc hcc
    have hcp : c ∈ dkeys st.pending := mem_dkeys_derase hc
    rcases mem_dkeys_dinsert hcc with h1 | h1
    · exact h.1 c hcp h1
    · exact not_mem_dkeys_derase_self h.2 (h1 ▸ hc)
  · exact nodup_dkeys_derase h.2

theorem processPing_st (st : ProcState) (params : List String) :
    (processPing st params).st = st := by
  cases params <;> rfl

theorem processPrivmsg_st (st : ProcState) (pfx : Option String) (params : List String)
    (raw : String) : (processPrivmsg st pfx params raw).st = st := by
  unfold processPrivmsg
  repeat' split
  all_goals rfl

theorem processNumericError_st (st : ProcState) (num : Nat) (params : List String)
    (raw : String) : (processNumericError st num params raw).st = st := by
  unfold processNumericError
  repeat' split
  all_goals rfl

theorem modeLoop_channels (channel initiator : String) (cs : ClientState)
    (evs : List Event) (l : List ModeChange) :
    (modeLoop channel initiator cs evs l).1.channels = cs.channels := by
  induction l generalizing cs evs with
  | nil => rfl
  | cons mc rest ih =>
    rw [modeLoop]
    repeat' split
    all_goals simp [ih]

theorem processChannelMode_pinv {st : ProcState} {ch : String} {ps : List String}
    {ini : String} (h : PInv st) : PInv (processChannelMode st ch ps ini).st := by
  unfold processChannelMode
  split
  · exact h
  · exact pinv_set_state_keys_eq (by rw [modeLoop_channels]) h

theorem processMode_pinv {st : ProcState} {pfx : Option String} {params : List String}
    {raw : String} (h : PInv st) : PInv (processMode st pfx params raw).st := by
  unfold processMode
  repeat' split
  any_goals exact h
  exact processChannelMode_pinv h

theorem processJoin_pinv {st : ProcState} {pfx : Option String} {params : List String}
    (h : PInv st) : PInv (processJoin st pfx params).st := by
  unfold processJoin
  split
  · exact h
  · split
    · exact h
    · split
      · split
        · exact h
        · next hin =>
          exact pinv_dinsert_pending_new (Bool.eq_false_iff.mpr hin) h
      · split
        · exact h
        · next info hl => exact pinv_dinsert_channels_existing hl h

theorem processPart_pinv {st : ProcState} {pfx : Option String} {params : List String}
    (h : PInv st) : PInv (processPart st pfx params).st := by
  unfold processPart
  split
  · exact h
  · split
    · exact h
    · split
      · split
        · exact pinv_derase_channels h
        · exact h
      · split
        · exact h
        · next info hl => exact pinv_dinsert_channels_existing hl h

theorem processKick_pinv {st : ProcState} {pfx : Option String} {params : List String}
    (h : PInv st) : PInv (processKick st pfx params).st := by
  unfold processKick
  split
  · exact h
  · split
    · split
      · exact h
      · split
        · split
          · exact pinv_derase_channels h
          · exact h
        · split
          · exact h
          · next info hl => exact pinv_dinsert_channels_existing hl h
    · exact h

theorem processNick_pinv {st : ProcState} {pfx : Option String} {params : List String}
    (h : PInv st) : PInv (processNick st pfx params).st := by
  unfold processNick
  split
  · exact h
  · split
    · exact h
    · split
      · exact pinv_set_state_keys_eq (by simp [dkeys_dmapVals]) h
      · exact pinv_set_state_keys_eq (by simp [dkeys_dmapVals]) h

theorem processQuit_pinv {st : ProcState} {pfx : Option String} {params : List String}
    (h : PInv st) : PInv (processQuit st pfx params).st := by
  unfold processQuit
  split
  · exact h
  · exact pinv_set_state_keys_eq (by simp [dkeys_dmapVals]) h

theorem setTopicSt_pinv {st : ProcState} {channel topic : String}
    (h : PInv st) : PInv (setTopicSt st channel topic) := by
  unfold setTopicSt
  split
  · split
    · next info hl => exact pinv_dinsert_pending_existing hl h
    · split
      · next info hl => exact pinv_dinsert_channels_existing hl h
      · exact h
  · exact h

theorem processTopic_pinv {st : ProcState} {params : List String}
    (h : PInv st) : PInv (processTopic st params).st := by
  unfold processTopic
  split
  · exact setTopicSt_pinv h
  · exact h

theorem processNumericReply_pinv {st : ProcState} {num : Nat} {pfx : Option String}
    {params : List String} {raw : String}
    (h : PInv st) : PInv (processNumericReply st num pfx params raw).st := by
  unfold processNumericReply
  split
  · split
    · exact pinv_set_state_keys_eq rfl h
    · exact pinv_set_state_keys_eq rfl h
  · split
    · split
      · exact setTopicSt_pinv h
      · exact h
    · split
      · split
        · exact h
        · split
          · next info hl => exact pinv_dinsert_pending_existing hl h
          · exact h
      · split
        · split
          · split
            · split
              · next info hl => exact pinv_promote_pending h
              · exact h
            · exact h
          · exact h
        · exact h

theorem processDispatch_pinv {st : ProcState} {pfx : Option String} {command : String}
    {params : List String} {raw : String}
    (h : PInv st) : PInv (processDispatch st pfx command params raw).st := by
  unfold processDispatch
  split
  · split
    · exact h
    · split
      · exact processNumericReply_pinv h
      · split
        · rw [processNumericError_st]; exact h
        · exact h
  · split
    · rw [processPing_st]; exact h
    · split
      · rw [processPrivmsg_st]; exact h
      · split
        · exact processJoin_pinv h
        · split
          · exact processPart_pinv h
          · split
            · exact processMode_pinv h
            · split
              · exact processKick_pinv h
              · split
                · exact processNick_pinv h
                · split
                  · exact processTopic_pinv h
                  · split
                    · exact processQuit_pinv h
                    · exact h

theorem process_pinv {st : ProcState} {msg : ServerMsg}
    (h : PInv st) : PInv (process st msg).1 := by
  unfold process
  split
  · split
    · exact h
    · dsimp only
      split
      all_goals exact processDispatch_pinv h
  · exact h

theorem processSeq_pinv {st : ProcState} (msgs : List ServerMsg)
    (h : PInv st) : PInv (processSeq st msgs).1 := by
  induction msgs generalizing st with
  | nil => exact h
  | cons m rest ih => exact ih (process_pinv h)

/-! ## Decoding pipeline lemmas -/

theorem printable_not_linebreak {c : Char} (h1 : 0x20 ≤ c.toNat) (h2 : c.toNat ≤ 0x7E) :
    isLineBreakChar c = false := by
  unfold isLineBreakChar
  simp only [Bool.or_eq_false_iff, decide_eq_false_iff_not]
  omega

theorem utf8_step_ascii (b : Nat) (hb : b < 0x80) (t : List Nat) :
    utf8DecodeReplace (b :: t) = Char.ofNat b :: utf8DecodeReplace t := by
  rw [utf8DecodeReplace.eq_def]
  dsimp only
  rw [if_pos hb]

theorem utf8_step_ff (t : List Nat) :
    utf8DecodeReplace (0xFF :: t) = replChar :: utf8DecodeReplace t := by
  rw [utf8DecodeReplace.eq_def]
  dsimp only
  rw [if_neg (by decide), if_neg (by decide), if_neg (by decide), if_neg (by decide)]

theorem utf8DecodeReplace_ascii (l : List Char) (t : List Nat)
    (h : ∀ c ∈ l, 0x20 ≤ c.toNat ∧ c.toNat ≤ 0x7E) :
    utf8DecodeReplace (l.map Char.toNat ++ t) = l ++ utf8DecodeReplace t := by
  induction l with
  | nil => simp
  | cons c l' ih =>
    have hc := h c (List.mem_cons_self c l')
    simp only [List.map_cons, List.cons_append]
    rw [utf8_step_ascii c.toNat (by omega), Char.ofNat_toNat]
    rw [ih (fun d hd => h d (List.mem_cons_of_mem c hd))]

theorem splitBreaks_crlf (t : List Char) :
    splitBreaks ('\r' :: '\n' :: t) = [] :: splitBreaks t := rfl

theorem splitBreaks_nonbreak (c : Char) (hc : isLineBreakChar c = false) (t : List Char) :
    splitBreaks (c :: t) = consHead c (splitBreaks t) := by
  have hcr : ¬(c = '\r') := by
    intro he
    rw [he] at hc
    exact absurd hc (by decide)
  rw [splitBreaks.eq_def]
  split
  · rename_i heq
    exact absurd heq (by simp)
  · rename_i rest heq
    injection heq with h1 h2
    exact absurd h1 hcr
  · rename_i c2 rest hprev heq
    injection heq with h1 h2
    subst h1
    subst h2
    rw [if_neg (by simp [hc])]

theorem splitBreaks_ascii_line (l : List Char) (t : List Char)
    (h : ∀ c ∈ l, isLineBreakChar c = false) :
    splitBreaks (l ++ '\r' :: '\n' :: t) = l :: splitBreaks t := by
  induction l with
  | nil => exact splitBreaks_crlf t
  | cons c l' ih =>
    have hc := h c (List.mem_cons_self c l')
    rw [List.cons_append, splitBreaks_nonbreak c hc]
    rw [ih (fun d hd => h d (List.mem_cons_of_mem c hd))]
    rfl

/-! ## Dispatch evaluation helpers -/

theorem dispatch_join (st : ProcState) (pfx : Option String) (params : List String)
    (raw : String) : processDispatch st pfx "JOIN" params raw = processJoin st pfx params := rfl

theorem dispatch_privmsg (st : ProcState) (pfx : Option String) (params : List String)
    (raw : String) :
    processDispatch st pfx "PRIVMSG" params raw = processPrivmsg st pfx params raw := rfl

theorem dispatch_kick (st : ProcState) (pfx : Option String) (params : List String)
    (raw : String) : processDispatch st pfx "KICK" params raw = processKick st pfx params := rfl

theorem dispatch_353 (st : ProcState) (pfx : Option String) (params : List String)
    (raw : String) :
    processDispatch st pfx "353" params raw = processNumericReply st 353 pfx params raw := rfl

theorem dispatch_366 (st : ProcState) (pfx : Option String) (params : List String)
    (raw : String) :
    processDispatch st pfx "366" params raw = processNumericReply st 366 pfx params raw := rfl

theorem dispatch_433 (st : ProcState) (pfx : Option String) (params : List String)
    (raw : String) :
    processDispatch st pfx "433" params raw = processNumericError st 433 params raw := rfl

theorem process_parsed_ok {st st' : ProcState} {evs : List Event} {pfx : Option String}
    {cmd : String} {params : List String} {raw : String}
    (hconn : st.state.connected = true)
    (hd : processDispatch st pfx cmd params raw = ⟨st', evs, none⟩) :
    process st (.parsed pfx cmd params raw) = (st', evs, .ok) := by
  unfold process
  rw [if_pos hconn]
  dsimp only
  rw [hd]

/-! ## Claim theorems -/

/-- C2: for every sequence of processed messages and every channel name c,
c is never simultaneously a key of the pending-channel table and a key of
`channels`: a self-JOIN creates a pending entry only when the channel is
not occupied, and ENDOFNAMES removes the pending entry in the very step
that inserts the channel into `channels`. -/
theorem pending_and_channels_never_overlap (msgs : List ServerMsg) (c : String) :
    (((dkeys (processSeq initProc msgs).1.pending).contains c) &&
     ((dkeys (processSeq initProc msgs).1.state.channels).contains c)) = false := by
  have h0 : PInv initProc := by
    constructor
    · intro x hx
      simp [initProc, dkeys] at hx
    · simp [initProc, dkeys]
  have h := processSeq_pinv msgs h0
  cases hp : (dkeys (processSeq initProc msgs).1.pending).contains c with
  | false => rfl
  | true =>
    have hmem := contains_dkeys_iff.mp hp
    have hnot := h.1 c hmem
    have hcf : (dkeys (processSeq initProc msgs).1.state.channels).contains c = false := by
      cases hcc : (dkeys (processSeq initProc msgs).1.state.channels).contains c with
      | false => rfl
      | true => exact absurd (contains_dkeys_iff.mp hcc) hnot
    rw [Bool.true_and]
    exact hcf

/-- C1: the claim that operatorIn and hasVoiceIn are always subsets of the
keys of `channels` fails on the code: granting this client operator status
in an occupied channel and then processing the client's own PART for that
channel leaves the channel in operator_in while removing it from channels
(_process_part and _process_kick never clean up operator_in/has_voice_in).
This evaluation exhibits the violating run. -/
theorem part_leaves_stale_operator_entry :
    (processSeq ⟨⟨true, true, "me", none, [("#c", ⟨"#c", none, ["me"]⟩)], [], []⟩, []⟩
        [.parsed (some "op!u@h") "MODE" ["#c", "+o", "me"] "m1",
         .parsed (some "me!u@h") "PART" ["#c"] "m2"]).1.state.operator_in = ["#c"] ∧
    (processSeq ⟨⟨true, true, "me", none, [("#c", ⟨"#c", none, ["me"]⟩)], [], []⟩, []⟩
        [.parsed (some "op!u@h") "MODE" ["#c", "+o", "me"] "m1",
         .parsed (some "me!u@h") "PART" ["#c"] "m2"]).1.state.channels = [] := by
  constructor
  · decide
  · decide

/-- C10: process does raise an exception that escapes it: a JOIN whose
origin resolves to another nick, naming a channel that is not a key of
`channels` (here one still pending during the join handshake), raises
KeyError from the `channels[channel]` lookup, which is neither a
MessageHandlingError nor a ParserError and so propagates out of process. -/
theorem other_join_pending_channel_raises :
    process ⟨⟨true, true, "me", none, [], [], []⟩, [("#y", ⟨"#y", none, []⟩)]⟩
      (.parsed (some "bob!u@h") "JOIN" ["#y"] "m")
    = (⟨⟨true, true, "me", none, [], [], []⟩, [("#y", ⟨"#y", none, []⟩)]⟩, [],
       .uncaught .keyError) := by decide

/-- C7: a KICK with fewer than 2 parameters changes no client state and
invokes no Handler callback at all: `_process_kick` returns before parsing,
so the message is silently ignored and not reported as unhandled. -/
theorem kick_short_params_silently_ignored (st : ProcState) (pfx : Option String)
    (params : List String) (raw : String)
    (hconn : st.state.connected = true) (hlen : params.length < 2) :
    process st (.parsed pfx "KICK" params raw) = (st, [], .ok) := by
  have hk : processKick st pfx params = ⟨st, [], none⟩ := by
    unfold processKick
    rw [if_pos hlen]
  exact process_parsed_ok hconn (by rw [dispatch_kick]; exact hk)

/-- C7 witness: a one-parameter KICK on a concrete state. -/
theorem kick_short_params_silently_ignored_witness :
    process initProc (.parsed (some "x!u@h") "KICK" ["#c"] "m") = (initProc, [], .ok) :=
  kick_short_params_silently_ignored initProc (some "x!u@h") ["#c"] "m" (by decide) (by decide)

/-- C5: the claim that the shutdown callback fires exactly once fails on
the code: terminate() guards only on loop.is_running(), which remains true
across two synchronous terminate() calls made while the loop is running
(loop.stop() merely requests the exit), so connection_shutdown runs twice;
terminate() before the loop was started is indeed a no-op. -/
theorem terminate_twice_fires_shutdown_twice :
    (Connection.terminate (Connection.terminate ⟨true, false, 0⟩)).shutdownCalls = 2 ∧
    Connection.terminate ⟨false, false, 0⟩ = ⟨false, false, 0⟩ := by decide

/-- C6: send_message raises NotConnectedError synchronously whenever the
event loop is not running (before start and after the loop exited on
termination), and while connected it appends the line terminator and
encodes the message as UTF-8. -/
theorem send_message_connection_states (c : ConnState) (m : String) :
    Connection.send_message { c with loopRunning := false } m = .error .notConnected ∧
    Connection.send_message { c with loopRunning := true } m =
      .ok (utf8Encode (m ++ "\r\n")) ∧
    Connection.send_message (loopExit (Connection.terminate c)) m = .error .notConnected := by
  refine ⟨rfl, rfl, ?_⟩
  unfold Connection.terminate loopExit Connection.send_message
  split <;> rfl

/-- C3: from a state where channel #x is neither occupied nor pending,
processing a self-JOIN for #x, then a NAMREPLY (353) listing nicks a and b
for #x, then an ENDOFNAMES (366) for #x puts #x into `channels` with nicks
{a, b}, and exactly one own-join event fires across the whole sequence, at
the ENDOFNAMES step and not before. -/
theorem join_handshake_yields_nicks_and_one_own_join (st : ProcState)
    (hconn : st.state.connected = true) (hnick : st.state.nick = "me")
    (hch : (dkeys st.state.channels).contains "#x" = false)
    (_hpend : (dkeys st.pending).contains "#x" = false) :
    (dlookup (processSeq st
        [.parsed (some "me!u@h") "JOIN" ["#x"] "m1",
         .parsed (some "srv") "353" ["me", "=", "#x", "a b"] "m2",
         .parsed (some "srv") "366" ["me", "#x", "End"] "m3"]).1.state.channels "#x").map
      ChannelInfo.nicks = some ["a", "b"] ∧
    countOwnJoin (process st (.parsed (some "me!u@h") "JOIN" ["#x"] "m1")).2.1 = 0 ∧
    countOwnJoin (process
      (process st (.parsed (some "me!u@h") "JOIN" ["#x"] "m1")).1
      (.parsed (some "srv") "353" ["me", "=", "#x", "a b"] "m2")).2.1 = 0 ∧
    countOwnJoin (process
      (process (process st (.parsed (some "me!u@h") "JOIN" ["#x"] "m1")).1
        (.parsed (some "srv") "353" ["me", "=", "#x", "a b"] "m2")).1
      (.parsed (some "srv") "366" ["me", "#x", "End"] "m3")).2.1 = 1 ∧
    countOwnJoin (processSeq st
        [.parsed (some "me!u@h") "JOIN" ["#x"] "m1",
         .parsed (some "srv") "353" ["me", "=", "#x", "a b"] "m2",
         .parsed (some "srv") "366" ["me", "#x", "End"] "m3"]).2 = 1 := by
  have hj : processJoin st (some "me!u@h") ["#x"] =
      ⟨{ st with pending := dinsert st.pending "#x" ⟨"#x", none, []⟩ }, [], none⟩ := by
    unfold processJoin
    rw [show parseNickFromPfx (some "me!u@h") = Except.ok "me" from rfl]
    dsimp only
    rw [if_pos hnick, if_neg (by rw [hch]; exact Bool.false_ne_true)]
  have h1 : process st (.parsed (some "me!u@h") "JOIN" ["#x"] "m1") =
      ({ st with pending := dinsert st.pending "#x" ⟨"#x", none, []⟩ }, [], .ok) :=
    process_parsed_ok hconn (by rw [dispatch_join]; exact hj)
  have hn : processNumericReply { st with pending := dinsert st.pending "#x" ⟨"#x", none, []⟩ } 353 (some "srv") ["me", "=", "#x", "a b"] "m2" =
      ⟨{ st with pending := (dinsert (dinsert st.pending "#x" ⟨"#x", none, []⟩) "#x" ⟨"#x", none, ["a", "b"]⟩) }, [.response 353 "m2"], none⟩ := by
    unfold processNumericReply
    rw [if_neg (by decide), if_neg (by decide), if_pos (by decide)]
    rw [show parse_name_list ["me", "=", "#x", "a b"] = Except.ok ⟨"#x", ["a", "b"]⟩ from rfl]
    dsimp only
    rw [dlookup_dinsert_self]
    rfl
  have h2 : process { st with pending := dinsert st.pending "#x" ⟨"#x", none, []⟩ } (.parsed (some "srv") "353" ["me", "=", "#x", "a b"] "m2") =
      ({ st with pending := (dinsert (dinsert st.pending "#x" ⟨"#x", none, []⟩) "#x" ⟨"#x", none, ["a", "b"]⟩) }, [.response 353 "m2"], .ok) :=
    process_parsed_ok hconn (by rw [dispatch_353]; exact hn)
  have he : processNumericReply { st with pending := (dinsert (dinsert st.pending "#x" ⟨"#x", none, []⟩) "#x" ⟨"#x", none, ["a", "b"]⟩) } 366 (some "srv") ["me", "#x", "End"] "m3" =
      ⟨{ st with pending := (derase (dinsert (dinsert st.pending "#x" ⟨"#x", none, []⟩) "#x" ⟨"#x", none, ["a", "b"]⟩) "#x"), state := { st.state with channels := dinsert st.state.channels "#x" ⟨"#x", none, ["a", "b"]⟩ } }, [.response 366 "m3", .ownJoin "#x"], none⟩ := by
    unfold processNumericReply
    rw [if_neg (by decide), if_neg (by decide), if_neg (by decide), if_pos (by decide)]
    dsimp only
    rw [if_pos (by decide), dlookup_dinsert_self]
    rfl
  have h3 : process { st with pending := (dinsert (dinsert st.pending "#x" ⟨"#x", none, []⟩) "#x" ⟨"#x", none, ["a", "b"]⟩) } (.parsed (some "srv") "366" ["me", "#x", "End"] "m3") =
      ({ st with pending := (derase (dinsert (dinsert st.pending "#x" ⟨"#x", none, []⟩) "#x" ⟨"#x", none, ["a", "b"]⟩) "#x"), state := { st.state with channels := dinsert st.state.channels "#x" ⟨"#x", none, ["a", "b"]⟩ } }, [.response 366 "m3", .ownJoin "#x"], .ok) :=
    process_parsed_ok hconn (by rw [dispatch_366]; exact he)
  refine ⟨?_, ?_, ?_, ?_, ?_⟩
  · simp only [processSeq, h1, h2, h3]
    rw [dlookup_dinsert_self]
    rfl
  · rw [h1]
    rfl
  · rw [h1, h2]
    rfl
  · rw [h1, h2, h3]
    rfl
  · simp only [processSeq, h1, h2, h3]
    rfl

/-- C3 witness: the handshake run from a concrete registered state. -/
theorem join_handshake_yields_nicks_and_one_own_join_witness :
    (dlookup (processSeq ⟨⟨true, true, "me", none, [], [], []⟩, []⟩
        [.parsed (some "me!u@h") "JOIN" ["#x"] "m1",
         .parsed (some "srv") "353" ["me", "=", "#x", "a b"] "m2",
         .parsed (some "srv") "366" ["me", "#x", "End"] "m3"]).1.state.channels "#x").map
      ChannelInfo.nicks = some ["a", "b"] ∧
    countOwnJoin (process ⟨⟨true, true, "me", none, [], [], []⟩, []⟩
      (.parsed (some "me!u@h") "JOIN" ["#x"] "m1")).2.1 = 0 ∧
    countOwnJoin (process
      (process ⟨⟨true, true, "me", none, [], [], []⟩, []⟩
        (.parsed (some "me!u@h") "JOIN" ["#x"] "m1")).1
      (.parsed (some "srv") "353" ["me", "=", "#x", "a b"] "m2")).2.1 = 0 ∧
    countOwnJoin (process
      (process (process ⟨⟨true, true, "me", none, [], [], []⟩, []⟩
        (.parsed (some "me!u@h") "JOIN" ["#x"] "m1")).1
        (.parsed (some "srv") "353" ["me", "=", "#x", "a b"] "m2")).1
      (.parsed (some "srv") "366" ["me", "#x", "End"] "m3")).2.1 = 1 ∧
    countOwnJoin (processSeq ⟨⟨true, true, "me", none, [], [], []⟩, []⟩
        [.parsed (some "me!u@h") "JOIN" ["#x"] "m1",
         .parsed (some "srv") "353" ["me", "=", "#x", "a b"] "m2",
         .parsed (some "srv") "366" ["me", "#x", "End"] "m3"]).2 = 1 :=
  join_handshake_yields_nicks_and_one_own_join ⟨⟨true, true, "me", none, [], [], []⟩, []⟩
    (by decide) (by decide) (by decide) (by decide)

/-- C8: a PRIVMSG from another user whose target list is exactly this
client's own nick fires exactly one private-message event carrying the
text and the sender nick, and no channel-message event; a PRIVMSG whose
origin resolves to this client's own nick fires no event at all. -/
theorem privmsg_private_message_and_self_echo (st : ProcState)
    (hconn : st.state.connected = true) (hnick : st.state.nick = "me") :
    process st (.parsed (some "nick!user@host") "PRIVMSG" ["me", "hello"] "p1") =
      (st, [.privateMessage "hello" "nick"], .ok) ∧
    process st (.parsed (some "me!user@host") "PRIVMSG" ["me", "hello"] "p2") =
      (st, [], .ok) := by
  constructor
  · have hp : processPrivmsg st (some "nick!user@host") ["me", "hello"] "p1" =
        ⟨st, [.privateMessage "hello" "nick"], none⟩ := by
      unfold processPrivmsg
      rw [if_neg (by decide)]
      rw [show privmsgSender (some "nick!user@host") = Except.ok (some "nick") from rfl]
      dsimp only
      rw [if_neg (by rw [hnick]; decide)]
      rw [show parse_message_target "me" = Except.ok [⟨some "me", none⟩] from rfl]
      dsimp only
      simp only [List.foldl_cons, List.foldl_nil, List.nil_append]
      unfold privmsgTargetEvents
      dsimp only
      rw [if_pos (by rw [hnick])]
    exact process_parsed_ok hconn (by rw [dispatch_privmsg]; exact hp)
  · have hp : processPrivmsg st (some "me!user@host") ["me", "hello"] "p2" =
        ⟨st, [], none⟩ := by
      unfold processPrivmsg
      rw [if_neg (by decide)]
      rw [show privmsgSender (some "me!user@host") = Except.ok (some "me") from rfl]
      dsimp only
      rw [if_pos hnick.symm]
    exact process_parsed_ok hconn (by rw [dispatch_privmsg]; exact hp)

/-- C8 witness: the two PRIVMSG runs from a concrete registered state. -/
theorem privmsg_private_message_and_self_echo_witness :
    process ⟨⟨true, true, "me", none, [], [], []⟩, []⟩
      (.parsed (some "nick!user@host") "PRIVMSG" ["me", "hello"] "p1") =
      (⟨⟨true, true, "me", none, [], [], []⟩, []⟩, [.privateMessage "hello" "nick"], .ok) ∧
    process ⟨⟨true, true, "me", none, [], [], []⟩, []⟩
      (.parsed (some "me!user@host") "PRIVMSG" ["me", "hello"] "p2") =
      (⟨⟨true, true, "me", none, [], [], []⟩, []⟩, [], .ok) :=
  privmsg_private_message_and_self_echo ⟨⟨true, true, "me", none, [], [], []⟩, []⟩
    (by decide) (by decide)

/-- C4: in the numeric-error path the first parameter is dropped, and when
the remaining parameter count does not match the static per-code schema,
every schema-named parameter is bound to the empty string except one
literally named message, which receives all remaining raw parameters
joined by spaces; in particular code 433 (schema nick, message) with a
single remaining parameter yields nick bound to the empty string and
message holding the full remaining raw text. -/
theorem numeric_error_schema_mismatch_graceful (st : ProcState) (num : Nat)
    (names : List String) (params : List String) (raw : String) (p1 : String)
    (hconn : st.state.connected = true)
    (hs : ERROR_PARAMETERS num = some names)
    (hm : (params.drop 1).length ≠ names.length) :
    processNumericError st num params raw =
      ⟨st, [.error num (names.map (fun nm =>
        (nm, if nm = "message" then joinSpace (params.drop 1) else "")))], none⟩ ∧
    process st (.parsed none "433" ["tgt", p1] raw) =
      (st, [.error 433 [("nick", ""), ("message", p1)]], .ok) := by
  constructor
  · unfold processNumericError
    rw [hs]
    dsimp only
    rw [if_pos hm]
  · have hn : processNumericError st 433 ["tgt", p1] raw =
        ⟨st, [.error 433 [("nick", ""), ("message", p1)]], none⟩ := by
      unfold processNumericError
      rw [show ERROR_PARAMETERS 433 = some ["nick", "message"] from rfl]
      dsimp only
      rw [if_pos (by simp)]
      rfl
    exact process_parsed_ok hconn (by rw [dispatch_433]; exact hn)

/-- C4 witness: code 433 with one remaining parameter on a concrete state. -/
theorem numeric_error_schema_mismatch_graceful_witness :
    processNumericError initProc 433 ["tgt", "abc"] "m" =
      ⟨initProc, [.error 433 (["nick", "message"].map (fun nm =>
        (nm, if nm = "message" then joinSpace (["tgt", "abc"].drop 1) else "")))], none⟩ ∧
    process initProc (.parsed none "433" ["tgt", "x"] "m") =
      (initProc, [.error 433 [("nick", ""), ("message", "x")]], .ok) :=
  numeric_error_schema_mismatch_graceful initProc 433 ["nick", "message"]
    ["tgt", "abc"] "m" "x" (by decide) (by decide) (by decide)

/-- C9: decoding an incoming byte block never raises: the decoder is the
total replacing decoder, a malformed byte subsequence (here the invalid
byte 0xFF) becomes the placeholder character U+FFFD, and a decode error in
one line does not prevent a subsequent well-formed complete line in the
same block from being dispatched, in order, after it. -/
theorem decode_replaces_and_keeps_later_lines (l : List Char)
    (h : ∀ c ∈ l, 0x20 ≤ c.toNat ∧ c.toNat ≤ 0x7E) :
    utf8DecodeReplace [0xFF] = [replChar] ∧
    Connection.data_received (0xFF :: 13 :: 10 :: (l.map Char.toNat ++ [13, 10])) =
      [String.mk [replChar], String.mk l] := by
  constructor
  · rfl
  · unfold Connection.data_received
    rw [utf8_step_ff, utf8_step_ascii 13 (by decide), utf8_step_ascii 10 (by decide)]
    rw [utf8DecodeReplace_ascii l [13, 10] h]
    rw [show Char.ofNat 13 = '\r' from rfl, show Char.ofNat 10 = '\n' from rfl]
    rw [show utf8DecodeReplace [13, 10] = ['\r', '\n'] from rfl]
    unfold pySplitlines
    rw [splitBreaks_nonbreak replChar (by decide)]
    rw [splitBreaks_crlf]
    rw [splitBreaks_ascii_line l []
      (fun c hc => printable_not_linebreak (h c hc).1 (h c hc).2)]
    rfl

/-- C9 witness: a concrete malformed byte followed by a PING line. -/
theorem decode_replaces_and_keeps_later_lines_witness :
    Connection.data_received
      (0xFF :: 13 :: 10 :: (("PING x".data.map Char.toNat) ++ [13, 10])) =
      [String.mk [replChar], "PING x"] :=
  (decode_replaces_and_keeps_later_lines "PING x".data (by decide)).2
